import Mathlib

/-!
Shallow embedding of the task REST API server
(`cc_simple_server/server.py`) together with proofs about its CRUD
behavior.

The server stores tasks in a SQLite table
`tasks(id INTEGER PRIMARY KEY AUTOINCREMENT, title TEXT, description TEXT,
completed BOOLEAN)`.  The table is modelled as a list of rows kept in rowid
(insertion) order together with the engine's auto-increment counter, and
each route handler becomes a function from the request data and the store
to the response and the new store; handlers that can raise
`HTTPException(404)` return an `Except`.
-/

/-- Request body of POST and PUT `/tasks/` (the `TaskCreate` model of the
`models` module): title, description, and completion flag, without an id. -/
structure TaskCreate where
  title : String
  description : String
  completed : Bool
  deriving DecidableEq, Repr

/-- Response body of the task routes (the `TaskRead` model): a persisted
task with its engine-assigned id.  Also the shape of one `tasks` row
`(id, title, description, completed)`. -/
structure TaskRead where
  id : Nat
  title : String
  description : String
  completed : Bool
  deriving DecidableEq, Repr

/-- The data of `fastapi.HTTPException` used by the handlers. -/
structure HTTPException where
  status_code : Nat
  detail : String
  deriving DecidableEq, Repr

/-- Modelled from the spec: the persisted `tasks` table (spec section 6), a
file-backed SQLite store opened by the `database` module, which is not under
`src/`.  `rows` is the table content in rowid order; `nextId` is the
`AUTOINCREMENT` counter: the id the engine assigns to the next inserted row,
strictly larger than every id it has ever assigned and never reused after a
deletion. -/
structure TasksDb where
  rows : List TaskRead
  nextId : Nat
  deriving DecidableEq, Repr

/-- The ids of all persisted tasks, in storage order. -/
def TasksDb.ids (db : TasksDb) : List Nat :=
  db.rows.map TaskRead.id

/-- The empty store produced by `init_db()` at process start. -/
def initDb : TasksDb :=
  { rows := [], nextId := 1 }

/-- Store well-formedness: persisted ids are pairwise distinct and every
persisted id is below the auto-increment counter — exactly what SQLite's
`INTEGER PRIMARY KEY AUTOINCREMENT` maintains. -/
def TasksDb.wf (db : TasksDb) : Prop :=
  db.ids.Nodup ∧ ∀ t ∈ db.rows, t.id < db.nextId

instance (db : TasksDb) : Decidable db.wf := by
  unfold TasksDb.wf
  infer_instance

/-- POST `/tasks/` handler (`server.create_task`): inserts one row with the
request's field values, reads the engine-assigned `cursor.lastrowid` back,
and returns `TaskRead(id=task_id, title=…, description=…, completed=…)`
built from the inputs. -/
def create_task (task_data : TaskCreate) (db : TasksDb) : TaskRead × TasksDb :=
  let task_id := db.nextId
  (⟨task_id, task_data.title, task_data.description, task_data.completed⟩,
   { rows := db.rows ++ [⟨task_id, task_data.title, task_data.description, task_data.completed⟩],
     nextId := db.nextId + 1 })

/-- GET `/tasks/` handler (`server.get_tasks`): `SELECT * FROM tasks`
materializes every row, in storage order. -/
def get_tasks (db : TasksDb) : List TaskRead :=
  db.rows

/-- Effect on one row of `UPDATE tasks SET title = ?, description = ?,
completed = ? WHERE id = ?`: rows matching the id get all three mutable
fields overwritten (the id column is not in the SET list), others are
untouched. -/
def applyUpdate (task_id : Nat) (task_data : TaskCreate) (t : TaskRead) : TaskRead :=
  if t.id = task_id then
    { t with title := task_data.title, description := task_data.description,
             completed := task_data.completed }
  else t

/-- PUT `/tasks/{task_id}/` handler (`server.update_task`): first checks
existence with `SELECT … WHERE id = ?` and `fetchone()`; if no row matches
it closes the connection and raises `HTTPException(404, "Task not found")`;
otherwise it runs one UPDATE statement over all matching rows and returns a
`TaskRead` constructed from the path id and the request body, not re-read
from storage. -/
def update_task (task_id : Nat) (task_data : TaskCreate) (db : TasksDb) :
    Except HTTPException (TaskRead × TasksDb) :=
  match db.rows.find? (fun t => t.id == task_id) with
  | none => .error ⟨404, "Task not found"⟩
  | some _ =>
    .ok (⟨task_id, task_data.title, task_data.description, task_data.completed⟩,
      { db with rows := db.rows.map (applyUpdate task_id task_data) })

/-- DELETE `/tasks/{task_id}/` handler (`server.delete_task`): checks
existence the same way; absent ids raise `HTTPException(404, "Task not
found")`; present ids are removed by `DELETE FROM tasks WHERE id = ?` and a
confirmation message is returned. -/
def delete_task (task_id : Nat) (db : TasksDb) :
    Except HTTPException (String × TasksDb) :=
  match db.rows.find? (fun t => t.id == task_id) with
  | none => .error ⟨404, "Task not found"⟩
  | some _ =>
    .ok (s!"Task {task_id} deleted successfully",
      { db with rows := db.rows.filter (fun t => !(t.id == task_id)) })

/-- One FastAPI route decorator, reduced to the data the claims mention. -/
structure RouteDecl where
  method : String
  path : String
  status_code : Nat
  deriving DecidableEq, Repr

/-- The decorator on `create_task`:
`@app.post("/tasks/", response_model=TaskRead, status_code=status.HTTP_200_OK)`,
where `fastapi.status.HTTP_200_OK` is the integer 200. -/
def create_task_route : RouteDecl :=
  { method := "POST", path := "/tasks/", status_code := 200 }

/-- A connection-lifecycle event: `get_db_connection()` acquires,
`conn.close()` releases. -/
inductive ConnEvent
  | acquire
  | release
  deriving DecidableEq, Repr

/-- Modelled from the spec: a `StorageFailure` (spec section 7) — an I/O or
commit error raised by the storage engine, e.g. from `conn.commit()` on a
locked store.  The handlers install no `try`/`finally`, so such an
exception propagates out of them directly. -/
inductive StorageFailure
  | ioError
  deriving DecidableEq, Repr

/-- Everything a handler call can raise: the `HTTPException` it constructs
itself, or a storage-engine error propagating through it. -/
inductive ReqError
  | http (e : HTTPException)
  | storage (e : StorageFailure)
  deriving DecidableEq, Repr

/-- `server.create_task` instrumented with its connection-event trace.
`commitOk` says whether `conn.commit()` on line 39 succeeds; when it raises,
the exception leaves the handler before `conn.close()` on line 41 runs, so
the trace stops after the acquire. -/
def create_taskT (task_data : TaskCreate) (db : TasksDb) (commitOk : Bool) :
    Except ReqError (TaskRead × TasksDb) × List ConnEvent :=
  if commitOk then
    (.ok (create_task task_data db), [ConnEvent.acquire, ConnEvent.release])
  else
    (.error (.storage .ioError), [ConnEvent.acquire])

/-- `server.get_tasks` instrumented with its connection-event trace;
`queryOk` says whether the SELECT succeeds. -/
def get_tasksT (db : TasksDb) (queryOk : Bool) :
    Except ReqError (List TaskRead) × List ConnEvent :=
  if queryOk then
    (.ok (get_tasks db), [ConnEvent.acquire, ConnEvent.release])
  else
    (.error (.storage .ioError), [ConnEvent.acquire])

/-- `server.update_task` instrumented with its connection-event trace.  The
404 path closes the connection explicitly before raising (lines 86-87); a
commit failure on line 93 propagates before `conn.close()` on line 94. -/
def update_taskT (task_id : Nat) (task_data : TaskCreate) (db : TasksDb) (commitOk : Bool) :
    Except ReqError (TaskRead × TasksDb) × List ConnEvent :=
  match db.rows.find? (fun t => t.id == task_id) with
  | none =>
    (.error (.http ⟨404, "Task not found"⟩), [ConnEvent.acquire, ConnEvent.release])
  | some _ =>
    if commitOk then
      (.ok (⟨task_id, task_data.title, task_data.description, task_data.completed⟩,
        { db with rows := db.rows.map (applyUpdate task_id task_data) }),
       [ConnEvent.acquire, ConnEvent.release])
    else
      (.error (.storage .ioError), [ConnEvent.acquire])

/-- `server.delete_task` instrumented with its connection-event trace; same
shape as `update_taskT` (closes on the 404 path at lines 119-120, commit on
line 123, close on line 124). -/
def delete_taskT (task_id : Nat) (db : TasksDb) (commitOk : Bool) :
    Except ReqError (String × TasksDb) × List ConnEvent :=
  match db.rows.find? (fun t => t.id == task_id) with
  | none =>
    (.error (.http ⟨404, "Task not found"⟩), [ConnEvent.acquire, ConnEvent.release])
  | some _ =>
    if commitOk then
      (.ok (s!"Task {task_id} deleted successfully",
        { db with rows := db.rows.filter (fun t => !(t.id == task_id)) }),
       [ConnEvent.acquire, ConnEvent.release])
    else
      (.error (.storage .ioError), [ConnEvent.acquire])

/-- One client request applied to the store; a request that fails with an
exception leaves the store unchanged. -/
inductive Op
  | createOp (t : TaskCreate)
  | updateOp (id : Nat) (t : TaskCreate)
  | deleteOp (id : Nat)
  deriving DecidableEq, Repr

/-- The store after serving one request. -/
def step (db : TasksDb) : Op → TasksDb
  | .createOp t => (create_task t db).2
  | .updateOp i t =>
    match update_task i t db with
    | .ok (_, db') => db'
    | .error _ => db
  | .deleteOp i =>
    match delete_task i db with
    | .ok (_, db') => db'
    | .error _ => db

/-- The store after serving a sequence of requests. -/
def run (db : TasksDb) (ops : List Op) : TasksDb :=
  ops.foldl step db

/-! ### Helper lemmas about the existence check and the SQL statements -/

theorem find?_id_eq_none_iff (rows : List TaskRead) (i : Nat) :
    rows.find? (fun t => t.id == i) = none ↔ ∀ t ∈ rows, t.id ≠ i := by
  simp [List.find?_eq_none]

theorem find?_id_isSome_iff (rows : List TaskRead) (i : Nat) :
    (rows.find? (fun t => t.id == i)).isSome ↔ ∃ t ∈ rows, t.id = i := by
  simp [List.find?_isSome]

theorem find?_id_eq_none_of_notMem (db : TasksDb) (i : Nat) (h : i ∉ db.ids) :
    db.rows.find? (fun t => t.id == i) = none := by
  rw [find?_id_eq_none_iff]
  intro t ht he
  exact h (he ▸ List.mem_map_of_mem TaskRead.id ht)

theorem find?_id_isSome_of_mem (db : TasksDb) (i : Nat) (h : i ∈ db.ids) :
    (db.rows.find? (fun t => t.id == i)).isSome := by
  rw [find?_id_isSome_iff]
  simpa [TasksDb.ids, List.mem_map] using h

theorem applyUpdate_id (i : Nat) (td : TaskCreate) (t : TaskRead) :
    (applyUpdate i td t).id = t.id := by
  unfold applyUpdate
  split <;> rfl

theorem applyUpdate_of_ne (i : Nat) (td : TaskCreate) (t : TaskRead) (h : t.id ≠ i) :
    applyUpdate i td t = t := by
  simp [applyUpdate, h]

theorem applyUpdate_of_eq (i : Nat) (td : TaskCreate) (t : TaskRead) (h : t.id = i) :
    applyUpdate i td t = ⟨i, td.title, td.description, td.completed⟩ := by
  subst h
  simp [applyUpdate]

theorem map_id_map_applyUpdate (i : Nat) (td : TaskCreate) (rows : List TaskRead) :
    (rows.map (applyUpdate i td)).map TaskRead.id = rows.map TaskRead.id := by
  induction rows with
  | nil => rfl
  | cons t ts ih => simp [ih, applyUpdate_id]

theorem map_applyUpdate_eq_self (i : Nat) (td : TaskCreate) (rows : List TaskRead)
    (h : ∀ t ∈ rows, t.id ≠ i) : rows.map (applyUpdate i td) = rows := by
  induction rows with
  | nil => rfl
  | cons t ts ih =>
    rw [List.map_cons, applyUpdate_of_ne i td t (h t (by simp)),
      ih (fun u hu => h u (by simp [hu]))]

theorem filter_id_eq_nil (i : Nat) (rows : List TaskRead)
    (h : ∀ t ∈ rows, t.id ≠ i) : rows.filter (fun t => t.id == i) = [] := by
  rw [List.filter_eq_nil_iff]
  intro t ht
  simpa using h t ht

theorem filter_map_applyUpdate (i : Nat) (td : TaskCreate) (rows : List TaskRead)
    (hnd : (rows.map TaskRead.id).Nodup) (hm : i ∈ rows.map TaskRead.id) :
    (rows.map (applyUpdate i td)).filter (fun t => t.id == i)
      = [⟨i, td.title, td.description, td.completed⟩] := by
  induction rows with
  | nil => simp at hm
  | cons t ts ih =>
    rw [List.map_cons, List.nodup_cons] at hnd
    by_cases hti : t.id = i
    · have hts : ∀ u ∈ ts, u.id ≠ i := by
        intro u hu he
        apply hnd.1
        rw [hti, ← he]
        exact List.mem_map_of_mem TaskRead.id hu
      rw [List.map_cons, applyUpdate_of_eq i td t hti,
        map_applyUpdate_eq_self i td ts hts, List.filter_cons]
      simp [filter_id_eq_nil i ts hts]
    · have hm' : i ∈ ts.map TaskRead.id := by
        rcases List.mem_cons.mp hm with h | h
        · exact absurd h.symm hti
        · exact h
      rw [List.map_cons, applyUpdate_of_ne i td t hti, List.filter_cons]
      simp [hti, ih hnd.2 hm']

/-! ### Helper lemmas about single requests and request sequences -/

theorem mem_rows_step (db : TasksDb) (op : Op) (tr : TaskRead) (htr : tr ∈ db.rows)
    (hupd : ∀ t', op ≠ Op.updateOp tr.id t') (hdel : op ≠ Op.deleteOp tr.id) :
    tr ∈ (step db op).rows := by
  cases op with
  | createOp t =>
    simp only [step, create_task]
    exact List.mem_append_left _ htr
  | updateOp j t =>
    have hne : tr.id ≠ j := fun h => hupd t (by rw [h])
    cases hfind : db.rows.find? (fun u => u.id == j) with
    | none => simpa [step, update_task, hfind] using htr
    | some u =>
      simp only [step, update_task, hfind, List.mem_map]
      exact ⟨tr, htr, applyUpdate_of_ne j t tr hne⟩
  | deleteOp j =>
    have hne : tr.id ≠ j := fun h => hdel (by rw [h])
    cases hfind : db.rows.find? (fun u => u.id == j) with
    | none => simpa [step, delete_task, hfind] using htr
    | some u =>
      simp only [step, delete_task, hfind, List.mem_filter]
      exact ⟨htr, by simp [hne]⟩

theorem mem_rows_run (db : TasksDb) (ops : List Op) (tr : TaskRead) (htr : tr ∈ db.rows)
    (h : ∀ op ∈ ops, (∀ t', op ≠ Op.updateOp tr.id t') ∧ op ≠ Op.deleteOp tr.id) :
    tr ∈ (run db ops).rows := by
  induction ops generalizing db with
  | nil => simpa [run] using htr
  | cons op ops ih =>
    have hstep := mem_rows_step db op tr htr (h op (by simp)).1 (h op (by simp)).2
    exact ih (step db op) hstep (fun o ho => h o (by simp [ho]))

theorem notMem_ids_step (i : Nat) (db : TasksDb) (op : Op)
    (h1 : i ∉ db.ids) (h2 : i < db.nextId) :
    i ∉ (step db op).ids ∧ i < (step db op).nextId := by
  cases op with
  | createOp t =>
    constructor
    · simp only [step, create_task, TasksDb.ids, List.map_append, List.mem_append] at h1 ⊢
      rintro (h | h)
      · exact h1 h
      · simp at h
        omega
    · simp only [step, create_task]
      omega
  | updateOp j t =>
    cases hfind : db.rows.find? (fun u => u.id == j) with
    | none => exact ⟨by simpa [step, update_task, hfind] using h1, by simpa [step, update_task, hfind] using h2⟩
    | some u =>
      constructor
      · simp only [step, update_task, hfind, TasksDb.ids]
        rw [map_id_map_applyUpdate]
        exact h1
      · simpa [step, update_task, hfind] using h2
  | deleteOp j =>
    cases hfind : db.rows.find? (fun u => u.id == j) with
    | none => exact ⟨by simpa [step, delete_task, hfind] using h1, by simpa [step, delete_task, hfind] using h2⟩
    | some u =>
      constructor
      · simp only [step, delete_task, hfind, TasksDb.ids, List.mem_map]
        rintro ⟨t, ht, hid⟩
        exact h1 (List.mem_map.mpr ⟨t, (List.mem_filter.mp ht).1, hid⟩)
      · simpa [step, delete_task, hfind] using h2

theorem notMem_ids_run (i : Nat) (db : TasksDb) (ops : List Op)
    (h1 : i ∉ db.ids) (h2 : i < db.nextId) :
    i ∉ (run db ops).ids := by
  induction ops generalizing db with
  | nil => simpa [run] using h1
  | cons op ops ih =>
    have hstep := notMem_ids_step i db op h1 h2
    exact ih (step db op) hstep.1 hstep.2

theorem delete_task_ok_notMem (i : Nat) (db : TasksDb) (msg : String) (db' : TasksDb)
    (h : delete_task i db = Except.ok (msg, db')) : i ∉ db'.ids ∧ db'.nextId = db.nextId := by
  cases hfind : db.rows.find? (fun u => u.id == i) with
  | none => simp [delete_task, hfind] at h
  | some u =>
    simp only [delete_task, hfind, Except.ok.injEq, Prod.mk.injEq] at h
    constructor
    · rw [← h.2]
      simp only [TasksDb.ids, List.mem_map]
      rintro ⟨t, ht, hid⟩
      have := (List.mem_filter.mp ht).2
      simp [hid] at this
    · rw [← h.2]

theorem update_task_ok (i : Nat) (td : TaskCreate) (db : TasksDb) (h : i ∈ db.ids) :
    update_task i td db =
      Except.ok (⟨i, td.title, td.description, td.completed⟩,
        { db with rows := db.rows.map (applyUpdate i td) }) := by
  cases hfind : db.rows.find? (fun t => t.id == i) with
  | none =>
    exfalso
    rw [find?_id_eq_none_iff] at hfind
    obtain ⟨t, ht, hid⟩ := List.mem_map.mp h
    exact hfind t ht hid
  | some u => simp [update_task, hfind]

/-! ### The claims -/

/-- C1: for every input triple, a successful create returns a Task whose id
is the engine-assigned id, unique among all persisted tasks, and whose
title, description and completed fields equal the input values. -/
theorem create_task_returns_fresh_task (td : TaskCreate) (db : TasksDb)
    (hwf : db.wf) :
    (create_task td db).1.title = td.title ∧
    (create_task td db).1.description = td.description ∧
    (create_task td db).1.completed = td.completed ∧
    (create_task td db).1.id ∉ db.ids ∧
    (create_task td db).2.ids.count (create_task td db).1.id = 1 := by
  refine ⟨rfl, rfl, rfl, ?_, ?_⟩
  · simp only [create_task, TasksDb.ids, List.mem_map]
    rintro ⟨t, ht, hid⟩
    have := hwf.2 t ht
    omega
  · have h0 : (db.rows.map TaskRead.id).count db.nextId = 0 := by
      rw [List.count_eq_zero]
      simp only [List.mem_map]
      rintro ⟨t, ht, hid⟩
      have := hwf.2 t ht
      omega
    simp only [create_task, TasksDb.ids, List.map_append, List.count_append]
    simp [h0]

theorem create_task_returns_fresh_task_witness :
    initDb.wf ∧
    ((create_task ⟨"Buy milk", "2%", false⟩ initDb).1.title = "Buy milk" ∧
     (create_task ⟨"Buy milk", "2%", false⟩ initDb).1.description = "2%" ∧
     (create_task ⟨"Buy milk", "2%", false⟩ initDb).1.completed = false ∧
     (create_task ⟨"Buy milk", "2%", false⟩ initDb).1.id ∉ initDb.ids ∧
     (create_task ⟨"Buy milk", "2%", false⟩ initDb).2.ids.count
       (create_task ⟨"Buy milk", "2%", false⟩ initDb).1.id = 1) :=
  ⟨by decide, create_task_returns_fresh_task ⟨"Buy milk", "2%", false⟩ initDb (by decide)⟩

/-- C2: update on an id not present in the store fails with HTTP 404 and
detail "Task not found", and leaves the stored task set completely
unchanged. -/
theorem update_task_notFound_unchanged (task_id : Nat) (td : TaskCreate) (db : TasksDb)
    (h : task_id ∉ db.ids) :
    update_task task_id td db = .error ⟨404, "Task not found"⟩ ∧
    step db (Op.updateOp task_id td) = db := by
  have hfind := find?_id_eq_none_of_notMem db task_id h
  exact ⟨by simp [update_task, hfind], by simp [step, update_task, hfind]⟩

theorem update_task_notFound_unchanged_witness :
    (1 ∉ initDb.ids) ∧
    (update_task 1 ⟨"a", "b", false⟩ initDb = .error ⟨404, "Task not found"⟩ ∧
     step initDb (Op.updateOp 1 ⟨"a", "b", false⟩) = initDb) :=
  ⟨by decide, update_task_notFound_unchanged 1 ⟨"a", "b", false⟩ initDb (by decide)⟩

/-- C9: the POST /tasks/ route is declared with status_code 200 — not the
conventional 201 — and a successful create responds with the created Task
representation. -/
theorem create_route_status_200 :
    create_task_route.method = "POST" ∧ create_task_route.path = "/tasks/" ∧
    create_task_route.status_code = 200 ∧ create_task_route.status_code ≠ 201 ∧
    (create_task ⟨"a", "b", false⟩ initDb).1 = ⟨1, "a", "b", false⟩ := by
  decide

/-- C3: delete of an absent id fails with 404 "Task not found"; after a
successful delete of an id, any update of that id and any second delete of
it fail with 404, and (when the id is below the auto-increment counter, as
it always is for an id the engine assigned) no sequence of further requests
ever brings that id back — no resurrection. -/
theorem delete_notFound_and_no_resurrection (i : Nat) (db : TasksDb) :
    (i ∉ db.ids → delete_task i db = .error ⟨404, "Task not found"⟩) ∧
    (∀ msg db', delete_task i db = Except.ok (msg, db') →
      (∀ td, update_task i td db' = .error ⟨404, "Task not found"⟩) ∧
      delete_task i db' = .error ⟨404, "Task not found"⟩ ∧
      (i < db.nextId → ∀ ops, i ∉ (run db' ops).ids)) := by
  constructor
  · intro h
    simp [delete_task, find?_id_eq_none_of_notMem db i h]
  · intro msg db' hok
    obtain ⟨hnot, hnext⟩ := delete_task_ok_notMem i db msg db' hok
    have hfind' := find?_id_eq_none_of_notMem db' i hnot
    refine ⟨fun td => by simp [update_task, hfind'], by simp [delete_task, hfind'], ?_⟩
    intro hlt ops
    exact notMem_ids_run i db' ops hnot (by omega)

theorem delete_notFound_and_no_resurrection_witness :
    (5 ∉ initDb.ids) ∧
    delete_task 5 initDb = .error ⟨404, "Task not found"⟩ ∧
    delete_task 1 (create_task ⟨"a", "b", false⟩ initDb).2 =
      Except.ok ("Task 1 deleted successfully", ⟨[], 2⟩) ∧
    update_task 1 ⟨"x", "y", true⟩ (⟨[], 2⟩ : TasksDb) = .error ⟨404, "Task not found"⟩ ∧
    delete_task 1 (⟨[], 2⟩ : TasksDb) = .error ⟨404, "Task not found"⟩ ∧
    1 ∉ (run (⟨[], 2⟩ : TasksDb) [Op.createOp ⟨"c", "d", true⟩]).ids := by
  have h2 := (delete_notFound_and_no_resurrection 1 (create_task ⟨"a", "b", false⟩ initDb).2).2
    "Task 1 deleted successfully" ⟨[], 2⟩ (by rfl)
  refine ⟨by decide,
    (delete_notFound_and_no_resurrection 5 initDb).1 (by decide),
    by rfl, h2.1 ⟨"x", "y", true⟩, h2.2.1, h2.2.2 (by decide) [Op.createOp ⟨"c", "d", true⟩]⟩

/-- C4 as stated is refuted: an intervening update of the created id — which
is not a delete — changes the stored field values, so a later listAll no
longer shows the values written by create. -/
theorem create_readback_fails_after_update :
    (∀ j, Op.updateOp (create_task ⟨"a", "b", false⟩ initDb).1.id ⟨"x", "y", true⟩ ≠
      Op.deleteOp j) ∧
    ¬ (∃ t ∈ get_tasks (run (create_task ⟨"a", "b", false⟩ initDb).2
          [Op.updateOp (create_task ⟨"a", "b", false⟩ initDb).1.id ⟨"x", "y", true⟩]),
        t.id = (create_task ⟨"a", "b", false⟩ initDb).1.id ∧
        t.title = "a" ∧ t.description = "b" ∧ t.completed = false) := by
  constructor
  · intro j h
    exact Op.noConfusion h
  · decide

/-- C4 amended: after create returns a Task with id `i`, every subsequent
listAll with no intervening update or delete of `i` includes a Task with id
`i` and exactly the created field values (read-after-write visibility). -/
theorem create_read_after_write (td : TaskCreate) (db : TasksDb) (ops : List Op)
    (h : ∀ op ∈ ops, (∀ t', op ≠ Op.updateOp (create_task td db).1.id t') ∧
      op ≠ Op.deleteOp (create_task td db).1.id) :
    ∃ t ∈ get_tasks (run (create_task td db).2 ops),
      t.id = (create_task td db).1.id ∧ t.title = td.title ∧
      t.description = td.description ∧ t.completed = td.completed := by
  have htr : (create_task td db).1 ∈ (create_task td db).2.rows := by
    simp [create_task]
  exact ⟨(create_task td db).1, mem_rows_run _ ops _ htr h, rfl, rfl, rfl, rfl⟩

theorem create_read_after_write_witness :
    (∀ op ∈ ([Op.createOp ⟨"c", "d", true⟩] : List Op),
      (∀ t', op ≠ Op.updateOp (create_task ⟨"a", "b", false⟩ initDb).1.id t') ∧
      op ≠ Op.deleteOp (create_task ⟨"a", "b", false⟩ initDb).1.id) ∧
    (∃ t ∈ get_tasks (run (create_task ⟨"a", "b", false⟩ initDb).2
        [Op.createOp ⟨"c", "d", true⟩]),
      t.id = (create_task ⟨"a", "b", false⟩ initDb).1.id ∧ t.title = "a" ∧
      t.description = "b" ∧ t.completed = false) := by
  have h : ∀ op ∈ ([Op.createOp ⟨"c", "d", true⟩] : List Op),
      (∀ t', op ≠ Op.updateOp (create_task ⟨"a", "b", false⟩ initDb).1.id t') ∧
      op ≠ Op.deleteOp (create_task ⟨"a", "b", false⟩ initDb).1.id := by
    intro op hop
    rw [List.mem_singleton] at hop
    subst hop
    exact ⟨fun t' he => Op.noConfusion he, fun he => Op.noConfusion he⟩
  exact ⟨h, create_read_after_write ⟨"a", "b", false⟩ initDb [Op.createOp ⟨"c", "d", true⟩] h⟩

/-- C5: create, then a successful update of the returned id with new
values, then listAll yields for that id exactly the updated values — never
the values written by create. -/
theorem create_update_read_roundtrip (td td' : TaskCreate) (db : TasksDb)
    (hwf : db.wf) :
    ∃ db₂,
      update_task (create_task td db).1.id td' (create_task td db).2 =
        Except.ok
          (⟨(create_task td db).1.id, td'.title, td'.description, td'.completed⟩, db₂) ∧
      (get_tasks db₂).filter (fun t => t.id == (create_task td db).1.id) =
        [⟨(create_task td db).1.id, td'.title, td'.description, td'.completed⟩] := by
  have hmem : (create_task td db).1.id ∈ (create_task td db).2.ids := by
    simp [create_task, TasksDb.ids]
  rw [update_task_ok (create_task td db).1.id td' (create_task td db).2 hmem]
  refine ⟨_, rfl, ?_⟩
  have hfresh : ∀ a ∈ db.rows.map TaskRead.id, a < db.nextId := by
    intro a ha
    obtain ⟨t, ht, rfl⟩ := List.mem_map.mp ha
    exact hwf.2 t ht
  have hids : ((create_task td db).2.rows.map TaskRead.id).Nodup := by
    show ((db.rows ++ [(⟨db.nextId, td.title, td.description, td.completed⟩ : TaskRead)]).map
      TaskRead.id).Nodup
    rw [List.map_append, List.nodup_append]
    refine ⟨hwf.1, List.nodup_singleton _, ?_⟩
    intro a ha hb
    have hlt := hfresh a ha
    simp only [List.map_cons, List.map_nil, List.mem_singleton] at hb
    omega
  have hmem' : (create_task td db).1.id ∈ (create_task td db).2.rows.map TaskRead.id :=
    hmem
  exact filter_map_applyUpdate (create_task td db).1.id td' (create_task td db).2.rows
    hids hmem'

theorem create_update_read_roundtrip_witness :
    initDb.wf ∧
    ∃ db₂,
      update_task (create_task ⟨"Buy milk", "2%", false⟩ initDb).1.id
          ⟨"Buy milk", "whole", true⟩ (create_task ⟨"Buy milk", "2%", false⟩ initDb).2 =
        Except.ok
          (⟨(create_task ⟨"Buy milk", "2%", false⟩ initDb).1.id, "Buy milk", "whole", true⟩,
           db₂) ∧
      (get_tasks db₂).filter
          (fun t => t.id == (create_task ⟨"Buy milk", "2%", false⟩ initDb).1.id) =
        [⟨(create_task ⟨"Buy milk", "2%", false⟩ initDb).1.id, "Buy milk", "whole", true⟩] :=
  ⟨by decide,
   create_update_read_roundtrip ⟨"Buy milk", "2%", false⟩ ⟨"Buy milk", "whole", true⟩
     initDb (by decide)⟩

/-- C6: for an existing id, update overwrites all mutable fields in one
UPDATE statement and returns the Task constructed from the path id and the
request body — not re-read from storage — and the returned object is exactly
the row that was written. -/
theorem update_task_returns_written (i : Nat) (td : TaskCreate) (db : TasksDb)
    (hwf : db.wf) (h : i ∈ db.ids) :
    ∃ db', update_task i td db =
        Except.ok (⟨i, td.title, td.description, td.completed⟩, db') ∧
      db'.rows.filter (fun t => t.id == i) = [⟨i, td.title, td.description, td.completed⟩] := by
  rw [update_task_ok i td db h]
  exact ⟨_, rfl, filter_map_applyUpdate i td db.rows hwf.1 h⟩

theorem update_task_returns_written_witness :
    ((create_task ⟨"a", "b", false⟩ initDb).2.wf ∧
      1 ∈ (create_task ⟨"a", "b", false⟩ initDb).2.ids) ∧
    ∃ db', update_task 1 ⟨"x", "y", true⟩ (create_task ⟨"a", "b", false⟩ initDb).2 =
        Except.ok (⟨1, "x", "y", true⟩, db') ∧
      db'.rows.filter (fun t => t.id == 1) = [⟨1, "x", "y", true⟩] :=
  ⟨⟨by decide, by decide⟩,
   update_task_returns_written 1 ⟨"x", "y", true⟩ (create_task ⟨"a", "b", false⟩ initDb).2
     (by decide) (by decide)⟩

/-- C7 fails on the code: the success paths and the 404 path do release the
connection before returning, but when `conn.commit()` raises a storage
error the handlers propagate the exception without reaching `conn.close()`,
so on a storage-failure path the acquired connection is not released before
the call returns. -/
theorem connection_not_released_on_commit_failure :
    (create_taskT ⟨"a", "b", false⟩ initDb false).2 = [ConnEvent.acquire] ∧
    (update_taskT 1 ⟨"x", "y", true⟩ (create_task ⟨"a", "b", false⟩ initDb).2 false).2 =
      [ConnEvent.acquire] ∧
    (delete_taskT 1 (create_task ⟨"a", "b", false⟩ initDb).2 false).2 =
      [ConnEvent.acquire] ∧
    (get_tasksT initDb false).2 = [ConnEvent.acquire] ∧
    (create_taskT ⟨"a", "b", false⟩ initDb true).2 = [ConnEvent.acquire, ConnEvent.release] ∧
    (update_taskT 1 ⟨"x", "y", true⟩ initDb true).2 = [ConnEvent.acquire, ConnEvent.release] := by
  decide

/-- C8: a successful update never changes any task's id: the stored id
sequence is exactly what it was before, and the returned task carries the
id from the path, assigned at creation. -/
theorem update_task_preserves_ids (i : Nat) (td : TaskCreate) (db : TasksDb) :
    ∀ task db', update_task i td db = Except.ok (task, db') →
      db'.ids = db.ids ∧ task.id = i := by
  intro task db' h
  cases hfind : db.rows.find? (fun t => t.id == i) with
  | none => simp [update_task, hfind] at h
  | some u =>
    simp only [update_task, hfind, Except.ok.injEq, Prod.mk.injEq] at h
    refine ⟨?_, by rw [← h.1]⟩
    rw [← h.2]
    simp only [TasksDb.ids]
    exact map_id_map_applyUpdate i td db.rows

theorem update_task_preserves_ids_witness :
    (update_task 1 ⟨"x", "y", true⟩ (create_task ⟨"a", "b", false⟩ initDb).2 =
      Except.ok (⟨1, "x", "y", true⟩, ⟨[⟨1, "x", "y", true⟩], 2⟩)) ∧
    (⟨[⟨1, "x", "y", true⟩], 2⟩ : TasksDb).ids =
      (create_task ⟨"a", "b", false⟩ initDb).2.ids ∧
    (⟨1, "x", "y", true⟩ : TaskRead).id = 1 :=
  ⟨by rfl,
   update_task_preserves_ids 1 ⟨"x", "y", true⟩ (create_task ⟨"a", "b", false⟩ initDb).2
     ⟨1, "x", "y", true⟩ ⟨[⟨1, "x", "y", true⟩], 2⟩ (by rfl)⟩

/-- C10: a successful update or delete of one id leaves every task whose id
differs completely unchanged: the very same row is still stored. -/
theorem update_delete_frame (i : Nat) (td : TaskCreate) (db : TasksDb)
    (tr : TaskRead) (htr : tr ∈ db.rows) (hne : tr.id ≠ i) :
    (∀ task db', update_task i td db = Except.ok (task, db') → tr ∈ db'.rows) ∧
    (∀ msg db', delete_task i db = Except.ok (msg, db') → tr ∈ db'.rows) := by
  constructor
  · intro task db' h
    cases hfind : db.rows.find? (fun t => t.id == i) with
    | none => simp [update_task, hfind] at h
    | some u =>
      simp only [update_task, hfind, Except.ok.injEq, Prod.mk.injEq] at h
      rw [← h.2]
      exact List.mem_map.mpr ⟨tr, htr, applyUpdate_of_ne i td tr hne⟩
  · intro msg db' h
    cases hfind : db.rows.find? (fun t => t.id == i) with
    | none => simp [delete_task, hfind] at h
    | some u =>
      simp only [delete_task, hfind, Except.ok.injEq, Prod.mk.injEq] at h
      rw [← h.2]
      exact List.mem_filter.mpr ⟨htr, by simp [hne]⟩

theorem update_delete_frame_witness :
    ((⟨1, "a", "b", false⟩ : TaskRead) ∈
        (⟨[⟨1, "a", "b", false⟩, ⟨2, "c", "d", true⟩], 3⟩ : TasksDb).rows ∧
      (⟨1, "a", "b", false⟩ : TaskRead).id ≠ 2) ∧
    (⟨1, "a", "b", false⟩ : TaskRead) ∈
      (⟨[⟨1, "a", "b", false⟩, ⟨2, "x", "y", true⟩], 3⟩ : TasksDb).rows ∧
    (⟨1, "a", "b", false⟩ : TaskRead) ∈ (⟨[⟨1, "a", "b", false⟩], 3⟩ : TasksDb).rows :=
  ⟨⟨by decide, by decide⟩,
   (update_delete_frame 2 ⟨"x", "y", true⟩
       ⟨[⟨1, "a", "b", false⟩, ⟨2, "c", "d", true⟩], 3⟩ ⟨1, "a", "b", false⟩
       (by decide) (by decide)).1
     ⟨2, "x", "y", true⟩ ⟨[⟨1, "a", "b", false⟩, ⟨2, "x", "y", true⟩], 3⟩ (by rfl),
   (update_delete_frame 2 ⟨"x", "y", true⟩
       ⟨[⟨1, "a", "b", false⟩, ⟨2, "c", "d", true⟩], 3⟩ ⟨1, "a", "b", false⟩
       (by decide) (by decide)).2
     "Task 2 deleted successfully" ⟨[⟨1, "a", "b", false⟩], 3⟩ (by rfl)⟩
